import Mathlib

/-
Verification of the natural-language specification of the OAuth 2.0
authorization-request endpoint implemented in
`src/mcp/server/auth/handlers/authorize.py`.

The Python source is shallowly embedded below: pure helpers become Lean
functions, the stateful handler (with its `nonlocal` error-recovery state)
becomes explicit state passing over `ErrCtx`, external collaborators
(client storage, redirect/scope validators, the authorization delegate)
become function-valued parameters, and Python exceptions become `Except`
values (`.error` = the call raised).
-/

set_option maxHeartbeats 1000000

namespace Mcp

/-! ## Raw request parameters

Starlette `QueryParams` / `FormData` are string-keyed multi-dicts whose values
are strings (query) or strings/upload files (form).  `ParamValue.file` stands
for any non-string value, which is exactly what
`best_effort_extract_string` guards against. -/

inductive ParamValue where
  | str (s : String)
  | file
  deriving DecidableEq, Repr

abbrev Params := List (String × ParamValue)

/-- `params.get(key)`: first value stored under `key`, if any. -/
def getParam (ps : Params) (k : String) : Option ParamValue :=
  match ps.find? (fun kv => kv.1 == k) with
  | some kv => some kv.2
  | none => none

/-- `key in params` membership test on the multi-dict. -/
def paramsContains (ps : Params) (k : String) : Bool :=
  ps.any (fun kv => kv.1 == k)

/-- Embeds `best_effort_extract_string` (authorize.py lines 62-70): returns the
value at `key` only when `params` is not `None` and the value is a string. -/
def best_effort_extract_string (key : String) (params : Option Params) : Option String :=
  match params with
  | none => none
  | some ps =>
    match getParam ps key with
    | some (.str s) => some s
    | _ => none

/-! ## URL parsing, unparsing and query encoding

The source uses `urllib.parse.urlparse` / `urlunparse` / `urlencode` and
pydantic's `AnyHttpUrl`.  These stdlib/library functions are modelled here for
the URLs this endpoint handles (no path parameters, ASCII has no special
treatment beyond UTF-8 percent-encoding, exactly as `quote_plus` does). -/

structure ParsedUrl where
  scheme : String
  netloc : String
  path : String
  params : String
  query : String
  fragment : String
  deriving DecidableEq, Repr

/-- Split a character list at the first occurrence of `c`; `none` if absent. -/
def splitOnceChar : List Char → Char → List Char × Option (List Char)
  | [], _ => ([], none)
  | x :: xs, c =>
    if x = c then ([], some xs)
    else
      let r := splitOnceChar xs c
      (x :: r.1, r.2)

def schemeChar (c : Char) : Bool :=
  c.isAlphanum || c = '+' || c = '-' || c = '.'

/-- Take the netloc: everything up to the first `/`, `?` or `#`. -/
def takeNetloc : List Char → List Char × List Char
  | [] => ([], [])
  | x :: xs =>
    if x = '/' ∨ x = '?' ∨ x = '#' then ([], x :: xs)
    else
      let r := takeNetloc xs
      (x :: r.1, r.2)

/-- Models `urllib.parse.urlparse` (scheme, `//netloc`, `#fragment`, `?query`,
in that order, as in CPython's `urlsplit`); path parameters are not split. -/
def urlparse (url : String) : ParsedUrl :=
  let cs := url.toList
  let schemeRest : List Char × List Char :=
    match splitOnceChar cs ':' with
    | (pre, some post) =>
      match pre with
      | [] => ([], cs)
      | c0 :: crest =>
        if c0.isAlpha ∧ (c0 :: crest).all schemeChar then
          ((c0 :: crest).map Char.toLower, post)
        else ([], cs)
    | (_, none) => ([], cs)
  let netlocRest : List Char × List Char :=
    match schemeRest.2 with
    | '/' :: '/' :: r => takeNetloc r
    | r => ([], r)
  let fragSplit := splitOnceChar netlocRest.2 '#'
  let querySplit := splitOnceChar fragSplit.1 '?'
  { scheme := String.mk schemeRest.1
  , netloc := String.mk netlocRest.1
  , path := String.mk querySplit.1
  , params := ""
  , query := String.mk (querySplit.2.getD [])
  , fragment := String.mk (fragSplit.2.getD []) }

/-- Models `urllib.parse.urlunparse` on a `ParsedUrl`. -/
def urlunparse (p : ParsedUrl) : String :=
  let url0 := if p.params ≠ "" then p.path ++ ";" ++ p.params else p.path
  let url1 :=
    if p.netloc ≠ "" ∨ url0.take 2 = "//" then
      "//" ++ p.netloc ++ (if url0 ≠ "" ∧ ¬(url0.take 1 = "/") then "/" ++ url0 else url0)
    else url0
  let url2 := if p.scheme ≠ "" then p.scheme ++ ":" ++ url1 else url1
  let url3 := if p.query ≠ "" then url2 ++ "?" ++ p.query else url2
  if p.fragment ≠ "" then url3 ++ "#" ++ p.fragment else url3

/-- UTF-8 byte sequence of a character (values as `Nat`). -/
def utf8Bytes (c : Char) : List Nat :=
  let n := c.toNat
  if n < 128 then [n]
  else if n < 2048 then [192 + n / 64, 128 + n % 64]
  else if n < 65536 then [224 + n / 4096, 128 + (n / 64) % 64, 128 + n % 64]
  else [240 + n / 262144, 128 + (n / 4096) % 64, 128 + (n / 64) % 64, 128 + n % 64]

/-- Uppercase hexadecimal digit, as CPython's `quote` emits. -/
def hexDigit (n : Nat) : Char :=
  if n < 10 then Char.ofNat (48 + n) else Char.ofNat (55 + n)

/-- CPython's always-safe characters for `quote`: ASCII alphanumerics
and `_`, `.`, `-`, `~`. -/
def alwaysSafe (c : Char) : Bool :=
  c.isAlphanum || c = '_' || c = '.' || c = '-' || c = '~'

def quoteByte (b : Nat) : List Char :=
  ['%', hexDigit (b / 16), hexDigit (b % 16)]

def quotePlusChar (c : Char) : List Char :=
  if c = ' ' then ['+']
  else if alwaysSafe c then [c]
  else (utf8Bytes c).foldr (fun b acc => quoteByte b ++ acc) []

/-- Models `urllib.parse.quote_plus` with `safe=''`. -/
def quote_plus (s : String) : String :=
  String.mk (s.toList.foldr (fun c acc => quotePlusChar c ++ acc) [])

/-- Models `urllib.parse.urlencode` on an ordered field mapping. -/
def urlencode (fields : List (String × String)) : String :=
  String.intercalate "&" (fields.map (fun kv => quote_plus kv.1 ++ "=" ++ quote_plus kv.2))

/-! ## Pydantic URL type -/

/-- A value of pydantic's `AnyHttpUrl`: a string that passed HTTP-URL
validation.  The original string is kept; pydantic's cosmetic normalisation is
not modelled since no claim depends on it. -/
structure HttpUrl where
  url : String
  deriving DecidableEq, Repr

/-- Models pydantic `AnyHttpUrl` validation: scheme must be `http`/`https` and
a nonempty host must be present; `none` means validation raises. -/
def parseHttpUrl (s : String) : Option HttpUrl :=
  let p := urlparse s
  if (p.scheme = "http" ∨ p.scheme = "https") ∧ p.netloc ≠ "" then some ⟨s⟩ else none

/-! ## The `AuthorizationRequest` pydantic model (authorize.py lines 31-51) -/

structure AuthorizationRequest where
  client_id : String
  redirect_uri : Option HttpUrl
  response_type : String
  code_challenge : String
  code_challenge_method : String
  state : Option String
  scope : Option String
  deriving DecidableEq, Repr

/-- One entry of pydantic's `ValidationError.errors()`: the failing field
(`loc`, always a single field name here) and the error `type`. -/
structure ValError where
  loc : String
  type : String
  deriving DecidableEq, Repr

/-- The violation list pydantic reports for `AuthorizationRequest` on a given
parameter mapping, field by field in declaration order:
`client_id: str` (required), `redirect_uri: AnyHttpUrl | None`,
`response_type: Literal["code"]` (required), `code_challenge: str` (required),
`code_challenge_method: Literal["S256"]` (defaulted), `state`/`scope`
optional strings. -/
def validationErrors (ps : Params) : List ValError :=
  (match getParam ps "client_id" with
   | some (.str _) => []
   | some .file => [⟨"client_id", "string_type"⟩]
   | none => [⟨"client_id", "missing"⟩])
  ++ (match getParam ps "redirect_uri" with
      | none => []
      | some (.str s) => if (parseHttpUrl s).isSome then [] else [⟨"redirect_uri", "url_parsing"⟩]
      | some .file => [⟨"redirect_uri", "url_type"⟩])
  ++ (match getParam ps "response_type" with
      | some (.str s) => if s = "code" then [] else [⟨"response_type", "literal_error"⟩]
      | some .file => [⟨"response_type", "literal_error"⟩]
      | none => [⟨"response_type", "missing"⟩])
  ++ (match getParam ps "code_challenge" with
      | some (.str _) => []
      | some .file => [⟨"code_challenge", "string_type"⟩]
      | none => [⟨"code_challenge", "missing"⟩])
  ++ (match getParam ps "code_challenge_method" with
      | some (.str s) => if s = "S256" then [] else [⟨"code_challenge_method", "literal_error"⟩]
      | some .file => [⟨"code_challenge_method", "literal_error"⟩]
      | none => [])
  ++ (match getParam ps "state" with
      | some .file => [⟨"state", "string_type"⟩]
      | _ => [])
  ++ (match getParam ps "scope" with
      | some .file => [⟨"scope", "string_type"⟩]
      | _ => [])

def getStrD (ps : Params) (k : String) : String :=
  match getParam ps k with
  | some (.str s) => s
  | _ => ""

def getStrOpt (ps : Params) (k : String) : Option String :=
  match getParam ps k with
  | some (.str s) => some s
  | _ => none

/-- Embeds `AuthorizationRequest.model_validate(params)`: either the parsed
request or the list of validation errors (a raised `ValidationError`). -/
def AuthorizationRequest.model_validate (ps : Params) :
    Except (List ValError) AuthorizationRequest :=
  let errs := validationErrors ps
  if errs = [] then
    .ok { client_id := getStrD ps "client_id"
        , redirect_uri :=
            (match getStrOpt ps "redirect_uri" with
             | some s => parseHttpUrl s
             | none => none)
        , response_type := "code"
        , code_challenge := getStrD ps "code_challenge"
        , code_challenge_method :=
            (match getStrOpt ps "code_challenge_method" with
             | some s => s
             | none => "S256")
        , state := getStrOpt ps "state"
        , scope := getStrOpt ps "scope" }
  else .error errs

/-- Embeds the error-kind selection loop of `handle` (authorize.py lines
153-157): `unsupported_response_type` exactly when some reported violation is a
literal mismatch on `response_type`, else `invalid_request`. -/
def pick_error (errs : List ValError) : String :=
  if errs.any (fun e => e.loc == "response_type" && e.type == "literal_error") then
    "unsupported_response_type"
  else "invalid_request"

/-! ## External collaborators

`OAuthServerProvider` and the client record are external to this core
(spec section 6); they are modelled as function-valued records whose calls may
return normally or raise (`Except.error` = a raised exception). -/

/-- The client record: `validate_redirect_uri` / `validate_scope` either return
a validated value or raise the typed rejection carrying a message
(`InvalidRedirectUriError` / `InvalidScopeError`). -/
structure Client where
  validate_redirect_uri : Option HttpUrl → Except String HttpUrl
  validate_scope : Option String → Except String (List String)

/-- The Python value bound to the `client` nonlocal.  Besides an actual client
or `None` it can be the empty string: `client_id and await get_client(...)`
short-circuits to `""` when the raw `client_id` is empty.  Only `someC` is
truthy and only `pyNone` is `None`. -/
inductive ClientVal where
  | pyNone
  | emptyStr
  | someC (c : Client)

/-- The validated bundle handed to the delegate (`AuthorizationParams`). -/
structure AuthorizationParams where
  state : Option String
  scopes : List String
  code_challenge : String
  redirect_uri : HttpUrl

/-- Outcome of `provider.authorize`: the next URI, a typed `AuthorizeError`,
or an unexpected internal fault (a raised non-`AuthorizeError` exception). -/
inductive AuthorizeResult where
  | ok (url : String)
  | authErr (error : String) (error_description : Option String)
  | exc

/-- The `OAuthServerProvider` surface used by this handler.  `get_client`
returns the client, `none` for not-found, or raises. -/
structure Provider where
  get_client : String → Except Unit (Option Client)
  authorize : Client → AuthorizationParams → AuthorizeResult

/-! ## Responses -/

/-- The HTTP responses this handler builds: a `RedirectResponse` (302 with a
`Location`) or a `PydanticJSONResponse` carrying an
`AuthorizationErrorResponse` body.  Both set `Cache-Control: no-store`, which
no claim depends on. -/
inductive HttpResponse where
  | redirect (status : Nat) (location : String)
  | jsonError (status : Nat) (error : String) (error_description : Option String)
      (state : Option String)
  deriving DecidableEq, Repr

/-- The `AuthorizationErrorResponse` pydantic model (authorize.py lines
54-59); `error_uri` is kept as an already-stringified URI. -/
structure AuthorizationErrorResponse where
  error : String
  error_description : Option String
  error_uri : Option String := none
  state : Option String := none
  deriving DecidableEq, Repr

/-- `model_dump(exclude_none=True)` on `AuthorizationErrorResponse`, in field
declaration order. -/
def AuthorizationErrorResponse.model_dump_exclude_none
    (r : AuthorizationErrorResponse) : List (String × String) :=
  [("error", r.error)]
    ++ (match r.error_description with | some x => [("error_description", x)] | none => [])
    ++ (match r.error_uri with | some x => [("error_uri", x)] | none => [])
    ++ (match r.state with | some x => [("state", x)] | none => [])

/-- The query fields the error router appends to a redirect: the dump of
`AuthorizationErrorResponse` with the given error, description and state
(`error_uri` is never set by this handler). -/
def errFields (error : String) (error_description : Option String)
    (state : Option String) : List (String × String) :=
  AuthorizationErrorResponse.model_dump_exclude_none
    ⟨error, error_description, none, state⟩

/-- Modelled from the spec: `construct_redirect_uri` is imported from
`mcp.server.auth.provider`, which is not under src/ (only its call site at
authorize.py line 124 is).  Spec section 4.4: parse the base URI's existing
query string, append the new encoded fields after it (concatenation with `&`,
preserving any pre-existing query), and reassemble the URI. -/
def construct_redirect_uri (redirect_uri_base : String)
    (fields : List (String × String)) : String :=
  let parsed := urlparse redirect_uri_base
  let newq := urlencode fields
  let q := if parsed.query ≠ "" then parsed.query ++ "&" ++ newq else newq
  urlunparse { parsed with query := q }

/-- Modelled from the spec: `stringify_pydantic_error` is imported from
`mcp.server.auth.errors`, which is not under src/.  It renders the validation
error list as a description string; no claim depends on its exact format. -/
def stringify_pydantic_error (errs : List ValError) : String :=
  String.intercalate "; " (errs.map (fun e => e.loc ++ ": " ++ e.type))

/-! ## The error router (`error_response`, authorize.py lines 90-135)

The closure mutates the nonlocals `client`, `redirect_uri`, `state` (with
`params` fixed by the enclosing scope); that state is the explicit `ErrCtx`.
Each recovery step either updates the state or raises. -/

structure ErrCtx where
  client : ClientVal
  redirect_uri : Option HttpUrl
  state : Option String
  params : Option Params

/-- Outcome of `error_response`: a response, or an escaped exception; both
carry the nonlocal state as updated so far (relevant because the top-level
catch-all re-enters `error_response` with that state). -/
inductive ErrOut where
  | resp (r : HttpResponse) (ctx : ErrCtx)
  | raised (ctx : ErrCtx)

/-- Lines 96-99: `if client is None and attempt_load_client:` make a last-ditch
attempt to load the client via `client_id and await self.provider.get_client(client_id)`.
Note the absence of any try/except: a raising resolver escapes (`.error`),
with the nonlocal `client` not yet reassigned. -/
def loadClientStep (P : Provider) (ctx : ErrCtx) (attempt_load_client : Bool) :
    Except Unit ClientVal :=
  match ctx.client, attempt_load_client with
  | .pyNone, true =>
    match best_effort_extract_string "client_id" ctx.params with
    | none => .ok .pyNone
    | some cid =>
      if cid = "" then .ok .emptyStr
      else
        match P.get_client cid with
        | .error _ => .error ()
        | .ok none => .ok .pyNone
        | .ok (some c) => .ok (.someC c)
  | c, _ => .ok c

/-- Lines 100-111: `if redirect_uri is None and client:` re-derive the redirect
URI.  When the `redirect_uri` key is syntactically absent the candidate is
`None`; otherwise `AnyHttpUrlModel.model_validate(...)` parses it — and that
call sits *outside* the `try` of lines 108-111, so a missing/non-string value
or an unparseable URI raises out of the whole step (`.error`).  Only
`client.validate_redirect_uri` rejections are swallowed. -/
def loadRedirectStep (ctx : ErrCtx) : Except Unit (Option HttpUrl) :=
  match ctx.redirect_uri, ctx.client with
  | none, .someC c =>
    let rawE : Except Unit (Option HttpUrl) :=
      match ctx.params with
      | some ps =>
        if paramsContains ps "redirect_uri" = false then .ok none
        else
          match best_effort_extract_string "redirect_uri" ctx.params with
          | none => .error ()
          | some s =>
            match parseHttpUrl s with
            | none => .error ()
            | some u => .ok (some u)
      | none => .error ()
    match rawE with
    | .error _ => .error ()
    | .ok raw =>
      match c.validate_redirect_uri raw with
      | .ok u => .ok (some u)
      | .error _ => .ok none
  | r, _ => .ok r

/-- Lines 112-114: re-read `state` from the raw parameters if unknown. -/
def stateAfter (ctx : ErrCtx) : Option String :=
  match ctx.state with
  | some s => some s
  | none => best_effort_extract_string "state" ctx.params

/-- Embeds `error_response` (authorize.py lines 90-135): best-effort recovery
of client, redirect URI and state, then redirect-vs-JSON emission
(`if redirect_uri and client:` → 302 with the error fields appended onto the
redirect URI, else direct JSON body with status 400). -/
def error_response (P : Provider) (ctx : ErrCtx) (error : String)
    (error_description : Option String) (attempt_load_client : Bool) : ErrOut :=
  match loadClientStep P ctx attempt_load_client with
  | .error _ => .raised ctx
  | .ok cl =>
    let ctx1 : ErrCtx := { ctx with client := cl }
    match loadRedirectStep ctx1 with
    | .error _ => .raised ctx1
    | .ok ru =>
      let ctx2 : ErrCtx := { ctx1 with redirect_uri := ru }
      let ctx3 : ErrCtx := { ctx2 with state := stateAfter ctx2 }
      match ctx3.redirect_uri, ctx3.client with
      | some u, .someC _ =>
        .resp (.redirect 302 (construct_redirect_uri u.url
          (errFields error error_description ctx3.state))) ctx3
      | _, _ => .resp (.jsonError 400 error error_description ctx3.state) ctx3

/-! ## The top-level handler (`AuthorizationHandler.handle`, lines 81-226) -/

/-- Result of `handle`: a response, or an exception that escaped the handler
(which the code's own catch-all failed to contain). -/
inductive HandleResult where
  | resp (r : HttpResponse)
  | raised
  deriving Repr

/-- The incoming Starlette request: method, query parameters, and what
`await request.form()` would yield (`.error` = form parsing raises). -/
structure Request where
  method : String
  query_params : Params
  form : Except Unit Params

/-- The `except Exception` catch-all (lines 219-226): log and convert to
`server_error` through `error_response` once more; if that call raises too,
the exception escapes `handle`. -/
def catchAll (P : Provider) (ctx : ErrCtx) : HandleResult :=
  match error_response P ctx "server_error" (some "An unexpected error occurred") true with
  | .resp r _ => .resp r
  | .raised _ => .raised

/-- A `return await error_response(...)` inside the `try` block: if
`error_response` itself raises, control falls to the catch-all with the
nonlocals as `error_response` left them. -/
def runErr (P : Provider) (ctx : ErrCtx) (error : String)
    (error_description : Option String) (attempt_load_client : Bool) : HandleResult :=
  match error_response P ctx error error_description attempt_load_client with
  | .resp r _ => .resp r
  | .raised ctx2 => catchAll P ctx2

/-- A single apostrophe, used in the not-found description string. -/
def squote : String := String.mk [Char.ofNat 39]

/-- Lines 162-217: client resolution, redirect validation, scope validation,
delegate invocation — each failure diverted into the error router with the
nonlocals established so far. -/
def afterValidation (P : Provider) (ps : Params) (ar : AuthorizationRequest) :
    HandleResult :=
  match P.get_client ar.client_id with
  | .error _ => catchAll P ⟨.pyNone, none, ar.state, some ps⟩
  | .ok none =>
    runErr P ⟨.pyNone, none, ar.state, some ps⟩ "invalid_request"
      (some ("Client ID " ++ squote ++ ar.client_id ++ squote ++ " not found")) false
  | .ok (some c) =>
    match c.validate_redirect_uri ar.redirect_uri with
    | .error msg =>
      runErr P ⟨.someC c, none, ar.state, some ps⟩ "invalid_request" (some msg) true
    | .ok ru =>
      match c.validate_scope ar.scope with
      | .error msg =>
        runErr P ⟨.someC c, some ru, ar.state, some ps⟩ "invalid_scope" (some msg) true
      | .ok scopes =>
        match P.authorize c ⟨ar.state, scopes, ar.code_challenge, ru⟩ with
        | .ok url => .resp (.redirect 302 url)
        | .authErr e d => runErr P ⟨.someC c, some ru, ar.state, some ps⟩ e d true
        | .exc => catchAll P ⟨.someC c, some ru, ar.state, some ps⟩

/-- Lines 146-160: save raw `state` first, then schema validation; a
`ValidationError` is routed with the error kind picked by the
`response_type`-literal scan. -/
def afterParams (P : Provider) (ps : Params) : HandleResult :=
  let state0 := best_effort_extract_string "state" (some ps)
  match AuthorizationRequest.model_validate ps with
  | .error errs =>
    runErr P ⟨.pyNone, none, state0, some ps⟩ (pick_error errs)
      (some (stringify_pydantic_error errs)) true
  | .ok ar => afterValidation P ps ar

/-- Lines 139-144: GET reads the query string, every other method reads the
form body (which may itself raise, reaching the catch-all with `params` still
`None`). -/
def chosenParams (req : Request) : Except Unit Params :=
  if req.method = "GET" then .ok req.query_params else req.form

/-- Embeds `AuthorizationHandler.handle` (authorize.py lines 81-226). -/
def AuthorizationHandler.handle (P : Provider) (req : Request) : HandleResult :=
  match chosenParams req with
  | .error _ => catchAll P ⟨.pyNone, none, none, none⟩
  | .ok ps => afterParams P ps

/-! ## `create_error_redirect` (authorize.py lines 229-257)

Present in src/ (currently uncalled); embedded with its three argument
shapes: an `AuthorizationErrorResponse`, an `OAuthError`, or any other
exception. -/

inductive ErrorArg where
  | response (r : AuthorizationErrorResponse)
  | oauth (error_code : String) (message : String)
  | other

def create_error_redirect (redirect_uri : String) (error : ErrorArg) : String :=
  let parsed_uri := urlparse redirect_uri
  let query_params : List (String × String) :=
    match error with
    | .response r => r.model_dump_exclude_none
    | .oauth code msg => [("error", code), ("error_description", msg)]
    | .other => [("error", "server_error"), ("error_description", "An unknown error occurred")]
  let new_query := urlencode query_params
  let new_query :=
    if parsed_uri.query ≠ "" then parsed_uri.query ++ "&" ++ new_query else new_query
  urlunparse { parsed_uri with query := new_query }

/-- Is the response a redirect? -/
def isRedirectB : HttpResponse → Bool
  | .redirect _ _ => true
  | .jsonError _ _ _ _ => false

/-- A client resolved through the provider together with a redirect URI
validated against that client's registration — the two facts the open-redirect
invariant demands before any redirect is emitted. -/
def Established (P : Provider) (c : Client) (u : HttpUrl) : Prop :=
  (∃ cid, P.get_client cid = .ok (some c)) ∧
  (∃ raw, c.validate_redirect_uri raw = .ok u)

/-- Invariant of the nonlocal recovery state: any known client was resolved
through the provider, and any known redirect URI was validated by that
client.  It holds at every `error_response` call site in `handle`. -/
def CtxOK (P : Provider) (ctx : ErrCtx) : Prop :=
  (∀ c, ctx.client = .someC c → ∃ cid, P.get_client cid = .ok (some c)) ∧
  (∀ u, ctx.redirect_uri = some u →
    ∃ c, ctx.client = .someC c ∧ ∃ raw, c.validate_redirect_uri raw = .ok u)


/-! ## Concrete fixtures used by witnesses and counterexamples -/

/-- Registered redirect URI of the demo client. -/
def cbUrl : HttpUrl := ⟨"https://app.example/cb"⟩

/-- A demo client: sole registered redirect URI `cbUrl` (also used as default
when the request omits `redirect_uri`), permitted scope `read`. -/
def demoClient : Client :=
  { validate_redirect_uri := fun u =>
      match u with
      | none => .ok cbUrl
      | some v => if v = cbUrl then .ok v else .error "redirect mismatch"
  , validate_scope := fun s =>
      match s with
      | none => .ok []
      | some "read" => .ok ["read"]
      | some _ => .error "scope not allowed" }

/-- A demo provider knowing exactly the client `c1`. -/
def demoProvider : Provider :=
  { get_client := fun cid => if cid = "c1" then .ok (some demoClient) else .ok none
  , authorize := fun _ _ => .ok "https://app.example/consent" }

/-- A provider whose client resolver always raises. -/
def raisingProvider : Provider :=
  { get_client := fun _ => .error (), authorize := fun _ _ => .exc }

/-- A provider that knows no client at all (resolver returns not-found). -/
def notFoundProvider : Provider :=
  { get_client := fun _ => .ok none, authorize := fun _ _ => .exc }

/-- A well-formed request that reaches the delegate. -/
def okRequest : Request :=
  ⟨"GET",
   [("client_id", .str "c1"), ("response_type", .str "code"),
    ("code_challenge", .str "x"), ("scope", .str "read"),
    ("redirect_uri", .str "https://app.example/cb"), ("state", .str "st")],
   .ok []⟩

/-! ## Helper lemmas about the error router -/

theorem loadClientStep_someC (P : Provider) (ctx : ErrCtx) (alc : Bool) (c : Client)
    (hc : ctx.client = .someC c) : loadClientStep P ctx alc = .ok (.someC c) := by
  unfold loadClientStep
  rw [hc]

theorem loadClientStep_ok {P : Provider} {ctx : ErrCtx} {alc : Bool} {cl : ClientVal}
    (h : loadClientStep P ctx alc = .ok cl) :
    cl = ctx.client ∨ cl = .pyNone ∨ cl = .emptyStr ∨
      ∃ cid c, cl = .someC c ∧ P.get_client cid = .ok (some c) := by
  unfold loadClientStep at h
  cases hcl : ctx.client <;> rw [hcl] at h
  case pyNone =>
    cases alc
    case false =>
      simp only [] at h
      exact Or.inr (Or.inl (Except.ok.inj h).symm)
    case true =>
      simp only [] at h
      cases hbe : best_effort_extract_string "client_id" ctx.params <;> rw [hbe] at h <;>
        simp only [] at h
      case none => exact Or.inr (Or.inl (Except.ok.inj h).symm)
      case some cid =>
        by_cases hcid : cid = ""
        · rw [if_pos hcid] at h
          exact Or.inr (Or.inr (Or.inl (Except.ok.inj h).symm))
        · rw [if_neg hcid] at h
          rcases hg : P.get_client cid with _ | oc <;> rw [hg] at h
          · exact absurd h (by simp)
          · rcases oc with _ | c
            · exact Or.inr (Or.inl (Except.ok.inj h).symm)
            · exact Or.inr (Or.inr (Or.inr ⟨cid, c, (Except.ok.inj h).symm, hg⟩))
  case emptyStr =>
    exact Or.inl (Except.ok.inj h).symm
  case someC c =>
    exact Or.inl (Except.ok.inj h).symm

theorem loadClientStep_error_inv {P : Provider} {ctx : ErrCtx} {alc : Bool}
    (h : loadClientStep P ctx alc = .error ()) :
    ctx.client = .pyNone ∧ loadClientStep P ctx true = .error () := by
  unfold loadClientStep at h ⊢
  cases hcl : ctx.client
  case pyNone =>
    rw [hcl] at h
    cases alc
    case false => simp at h
    case true => exact ⟨rfl, h⟩
  case emptyStr => rw [hcl] at h; simp at h
  case someC c => rw [hcl] at h; simp at h

theorem loadRedirectStep_ok {ctx : ErrCtx} {ru : Option HttpUrl}
    (h : loadRedirectStep ctx = .ok ru) :
    ru = ctx.redirect_uri ∨ ru = none ∨
      ∃ c raw u, ctx.client = .someC c ∧ c.validate_redirect_uri raw = .ok u ∧
        ru = some u := by
  unfold loadRedirectStep at h
  rcases hru : ctx.redirect_uri with _ | u0 <;> rw [hru] at h
  case none =>
    cases hcl : ctx.client <;> rw [hcl] at h
    case pyNone => exact Or.inl (Except.ok.inj h).symm
    case emptyStr => exact Or.inl (Except.ok.inj h).symm
    case someC c =>
      simp only [] at h
      rcases hraw : (match ctx.params with
        | some ps =>
          if paramsContains ps "redirect_uri" = false then Except.ok none
          else
            match best_effort_extract_string "redirect_uri" ctx.params with
            | none => Except.error ()
            | some s =>
              match parseHttpUrl s with
              | none => Except.error ()
              | some u => Except.ok (some u)
        | none => Except.error () : Except Unit (Option HttpUrl)) with _ | raw <;>
          rw [hraw] at h <;> simp only [] at h
      · exact absurd h (by simp)
      · rcases hv : c.validate_redirect_uri raw with msg | u <;> rw [hv] at h
        · exact Or.inr (Or.inl (Except.ok.inj h).symm)
        · exact Or.inr (Or.inr ⟨c, raw, u, rfl, hv, (Except.ok.inj h).symm⟩)
  case some =>
    cases hcl : ctx.client <;> rw [hcl] at h <;>
      exact Or.inl (Except.ok.inj h).symm

theorem loadRedirectStep_error_inv {ctx : ErrCtx}
    (h : loadRedirectStep ctx = .error ()) :
    ∃ c, ctx.client = .someC c ∧ ctx.redirect_uri = none ∧
      loadRedirectStep ctx = .error () := by
  unfold loadRedirectStep at h ⊢
  rcases hru : ctx.redirect_uri with _ | u0 <;> rw [hru] at h
  case none =>
    cases hcl : ctx.client <;> rw [hcl] at h
    case pyNone => simp at h
    case emptyStr => simp at h
    case someC c => exact ⟨c, rfl, rfl, h⟩
  case some => cases hcl : ctx.client <;> rw [hcl] at h <;> simp at h

theorem er_resp_shape {P : Provider} {ctx : ErrCtx} {e : String} {d : Option String}
    {alc : Bool} {r : HttpResponse} {ctx' : ErrCtx}
    (h : error_response P ctx e d alc = .resp r ctx') :
    (r = .jsonError 400 e d (stateAfter ctx) ∧
      ∀ u c, ¬(ctx'.redirect_uri = some u ∧ ctx'.client = .someC c)) ∨
    (∃ u c, ctx'.redirect_uri = some u ∧ ctx'.client = .someC c ∧
      r = .redirect 302 (construct_redirect_uri u.url (errFields e d (stateAfter ctx)))) := by
  unfold error_response at h
  rcases hc : loadClientStep P ctx alc with ⟨u0⟩ | cl <;> rw [hc] at h <;> simp only [] at h
  · exact absurd h (by simp)
  · rcases hr : loadRedirectStep { ctx with client := cl } with ⟨u1⟩ | ru <;>
      rw [hr] at h <;> simp only [] at h
    · exact absurd h (by simp)
    · rcases ru with _ | u <;> rcases cl with _ | _ | c <;> simp only [] at h <;> cases h
      · exact Or.inl ⟨rfl, by simp⟩
      · exact Or.inl ⟨rfl, by simp⟩
      · exact Or.inl ⟨rfl, by simp⟩
      · exact Or.inl ⟨rfl, by simp⟩
      · exact Or.inl ⟨rfl, by simp⟩
      · exact Or.inr ⟨u, c, rfl, rfl, rfl⟩

theorem er_resp_ctxok {P : Provider} {ctx : ErrCtx} {e : String} {d : Option String}
    {alc : Bool} {r : HttpResponse} {ctx' : ErrCtx} (hok : CtxOK P ctx)
    (h : error_response P ctx e d alc = .resp r ctx') : CtxOK P ctx' := by
  unfold error_response at h
  rcases hc : loadClientStep P ctx alc with ⟨u0⟩ | cl <;> rw [hc] at h <;> simp only [] at h
  · exact absurd h (by simp)
  · rcases hr : loadRedirectStep { ctx with client := cl } with ⟨u1⟩ | ru <;>
      rw [hr] at h <;> simp only [] at h
    · exact absurd h (by simp)
    · have hcl1 : ∀ c, cl = .someC c → ∃ cid, P.get_client cid = .ok (some c) := by
        intro c hceq
        rcases loadClientStep_ok hc with h1 | h1 | h1 | ⟨cid, c2, h2, h3⟩
        · exact hok.1 c (h1.symm.trans hceq)
        · rw [h1] at hceq; exact absurd hceq (by simp)
        · rw [h1] at hceq; exact absurd hceq (by simp)
        · rw [h2] at hceq
          cases hceq
          exact ⟨cid, h3⟩
      have hru1 : ∀ u, ru = some u →
          ∃ c, cl = .someC c ∧ ∃ raw, c.validate_redirect_uri raw = .ok u := by
        intro u hueq
        rcases loadRedirectStep_ok hr with h1 | h1 | ⟨c, raw, u2, h2, h3, h4⟩
        · simp only [] at h1
          obtain ⟨c0, hc0, hv0⟩ := hok.2 u (h1.symm.trans hueq)
          have hsc := loadClientStep_someC P ctx alc c0 hc0
          rw [hc] at hsc
          exact ⟨c0, Except.ok.inj hsc, hv0⟩
        · rw [h1] at hueq; exact absurd hueq (by simp)
        · simp only [] at h2
          rw [h4] at hueq
          cases hueq
          exact ⟨c, h2, raw, h3⟩
      rcases ru with _ | u <;> rcases cl with _ | _ | c <;> simp only [] at h <;> cases h
      · exact ⟨fun c2 hc2 => absurd hc2 (by simp), fun u2 hu2 => absurd hu2 (by simp)⟩
      · exact ⟨fun c2 hc2 => absurd hc2 (by simp), fun u2 hu2 => absurd hu2 (by simp)⟩
      · exact ⟨fun c2 hc2 => hcl1 c2 hc2, fun u2 hu2 => absurd hu2 (by simp)⟩
      · refine ⟨fun c2 hc2 => absurd hc2 (by simp), fun u2 hu2 => ?_⟩
        obtain ⟨c3, hc3, hv3⟩ := hru1 u2 hu2
        exact absurd hc3 (by simp)
      · refine ⟨fun c2 hc2 => absurd hc2 (by simp), fun u2 hu2 => ?_⟩
        obtain ⟨c3, hc3, hv3⟩ := hru1 u2 hu2
        exact absurd hc3 (by simp)
      · refine ⟨fun c2 hc2 => hcl1 c2 hc2, fun u2 hu2 => ?_⟩
        obtain ⟨c3, hc3, hv3⟩ := hru1 u2 hu2
        exact ⟨c3, hc3, hv3⟩

theorem er_raised_again {P : Provider} {ctx : ErrCtx} {e : String} {d : Option String}
    {alc : Bool} {ctx2 : ErrCtx}
    (h : error_response P ctx e d alc = .raised ctx2) (e' : String) (d' : Option String) :
    error_response P ctx2 e' d' true = .raised ctx2 := by
  unfold error_response at h ⊢
  rcases hc : loadClientStep P ctx alc with ⟨u0⟩ | cl <;> rw [hc] at h <;> simp only [] at h
  · cases h
    obtain ⟨hpy, herr⟩ := loadClientStep_error_inv hc
    rw [herr]
  · rcases hr : loadRedirectStep { ctx with client := cl } with ⟨u1⟩ | ru <;>
      rw [hr] at h <;> simp only [] at h
    · cases h
      obtain ⟨c, hcee, hrn, _⟩ := loadRedirectStep_error_inv hr
      simp only [] at hcee
      subst hcee
      rw [loadClientStep_someC P { ctx with client := ClientVal.someC c } true c rfl]
      simp only []
      rw [hr]
    · rcases ru with _ | u <;> rcases cl with _ | _ | c <;> simp only [] at h <;>
        exact absurd h (by simp)

theorem catchAll_resp {P : Provider} {ctx : ErrCtx} {r : HttpResponse}
    (h : catchAll P ctx = .resp r) :
    ∃ ctx', error_response P ctx "server_error" (some "An unexpected error occurred") true
      = .resp r ctx' := by
  unfold catchAll at h
  rcases he : error_response P ctx "server_error" (some "An unexpected error occurred") true
    with ⟨r0, ctx'⟩ | ctx2 <;> rw [he] at h <;> simp only [] at h
  · cases h; exact ⟨ctx', rfl⟩
  · exact absurd h (by simp)

theorem runErr_resp {P : Provider} {ctx : ErrCtx} {e : String} {d : Option String}
    {alc : Bool} {r : HttpResponse} (h : runErr P ctx e d alc = .resp r) :
    ∃ ctx', error_response P ctx e d alc = .resp r ctx' := by
  unfold runErr at h
  rcases he : error_response P ctx e d alc with ⟨r0, ctx'⟩ | ctx2 <;>
    rw [he] at h <;> simp only [] at h
  · cases h; exact ⟨ctx', rfl⟩
  · have hra := er_raised_again he "server_error" (some "An unexpected error occurred")
    unfold catchAll at h
    rw [hra] at h
    exact absurd h (by simp)

theorem handle_resp_cases {P : Provider} {req : Request} {r : HttpResponse}
    (h : AuthorizationHandler.handle P req = .resp r) :
    (∃ l c u, r = .redirect 302 l ∧ Established P c u) ∨
    (∃ ctx e d alc ctx', CtxOK P ctx ∧ error_response P ctx e d alc = .resp r ctx') := by
  unfold AuthorizationHandler.handle at h
  rcases hcp : chosenParams req with ⟨u0⟩ | ps <;> rw [hcp] at h <;> try simp only [] at h
  · obtain ⟨ctx', he⟩ := catchAll_resp h
    exact Or.inr ⟨_, _, _, _, ctx', ⟨by simp, by simp⟩, he⟩
  · unfold afterParams at h
    try simp only [] at h
    rcases hval : AuthorizationRequest.model_validate ps with errs | ar <;>
      rw [hval] at h <;> try simp only [] at h
    · obtain ⟨ctx', he⟩ := runErr_resp h
      exact Or.inr ⟨_, _, _, _, ctx', ⟨by simp, by simp⟩, he⟩
    · unfold afterValidation at h
      rcases hgc : P.get_client ar.client_id with ⟨u1⟩ | oc <;> rw [hgc] at h <;>
        try simp only [] at h
      · obtain ⟨ctx', he⟩ := catchAll_resp h
        exact Or.inr ⟨_, _, _, _, ctx', ⟨by simp, by simp⟩, he⟩
      · rcases oc with _ | c <;> try simp only [] at h
        · obtain ⟨ctx', he⟩ := runErr_resp h
          exact Or.inr ⟨_, _, _, _, ctx', ⟨by simp, by simp⟩, he⟩
        · rcases hvu : c.validate_redirect_uri ar.redirect_uri with msg | ru <;>
            rw [hvu] at h <;> try simp only [] at h
          · obtain ⟨ctx', he⟩ := runErr_resp h
            refine Or.inr ⟨_, _, _, _, ctx', ⟨?_, ?_⟩, he⟩
            · intro c2 hc2
              try simp only [] at hc2
              cases hc2
              exact ⟨ar.client_id, hgc⟩
            · intro u2 hu2
              exact absurd hu2 (by simp)
          · rcases hvs : c.validate_scope ar.scope with msg | scopes <;>
              rw [hvs] at h <;> try simp only [] at h
            · obtain ⟨ctx', he⟩ := runErr_resp h
              refine Or.inr ⟨_, _, _, _, ctx', ⟨?_, ?_⟩, he⟩
              · intro c2 hc2
                try simp only [] at hc2
                cases hc2
                exact ⟨ar.client_id, hgc⟩
              · intro u2 hu2
                try simp only [] at hu2
                cases hu2
                exact ⟨c, rfl, ar.redirect_uri, hvu⟩
            · cases haz : P.authorize c ⟨ar.state, scopes, ar.code_challenge, ru⟩ <;>
                rw [haz] at h <;> try simp only [] at h
              case ok url =>
                cases h
                exact Or.inl ⟨url, c, ru, rfl, ⟨ar.client_id, hgc⟩, ⟨ar.redirect_uri, hvu⟩⟩
              case authErr e0 d0 =>
                obtain ⟨ctx', he⟩ := runErr_resp h
                refine Or.inr ⟨_, _, _, _, ctx', ⟨?_, ?_⟩, he⟩
                · intro c2 hc2
                  try simp only [] at hc2
                  cases hc2
                  exact ⟨ar.client_id, hgc⟩
                · intro u2 hu2
                  try simp only [] at hu2
                  cases hu2
                  exact ⟨c, rfl, ar.redirect_uri, hvu⟩
              case exc =>
                obtain ⟨ctx', he⟩ := catchAll_resp h
                refine Or.inr ⟨_, _, _, _, ctx', ⟨?_, ?_⟩, he⟩
                · intro c2 hc2
                  try simp only [] at hc2
                  cases hc2
                  exact ⟨ar.client_id, hgc⟩
                · intro u2 hu2
                  try simp only [] at hu2
                  cases hu2
                  exact ⟨c, rfl, ar.redirect_uri, hvu⟩

/-! ## Claim theorems -/

/-- Claim C1: for every request handled by `AuthorizationHandler.handle`, a 302
redirect response is emitted if and only if both a resolved client and a
redirect URI validated against that client's registration are established at
the time the response is built (success path after delegate invocation, and
every error path via the error router); otherwise the error is returned as a
direct JSON body, never a redirect to an unvalidated URI. -/
theorem c1_redirect_iff_client_and_validated_uri :
    (∀ (P : Provider) (ctx : ErrCtx) (e : String) (d : Option String) (alc : Bool)
        (r : HttpResponse) (ctx' : ErrCtx),
        error_response P ctx e d alc = .resp r ctx' →
        (isRedirectB r = true ↔
          ∃ u c, ctx'.redirect_uri = some u ∧ ctx'.client = .someC c)) ∧
    (∀ (P : Provider) (req : Request) (r : HttpResponse),
        AuthorizationHandler.handle P req = .resp r → isRedirectB r = true →
        ∃ c u, Established P c u) ∧
    (∀ (P : Provider) (req : Request) (r : HttpResponse),
        AuthorizationHandler.handle P req = .resp r → isRedirectB r = false →
        ∃ e d st, r = .jsonError 400 e d st) := by
  refine ⟨?_, ?_, ?_⟩
  · intro P ctx e d alc r ctx' h
    rcases er_resp_shape h with ⟨hj, hneg⟩ | ⟨u, c, h1, h2, h3⟩
    · subst hj
      constructor
      · intro hr; exact absurd hr (by simp [isRedirectB])
      · intro ⟨u, c, h1, h2⟩; exact absurd ⟨h1, h2⟩ (hneg u c)
    · subst h3
      exact ⟨fun _ => ⟨u, c, h1, h2⟩, fun _ => rfl⟩
  · intro P req r h hr
    rcases handle_resp_cases h with ⟨l, c, u, hl, hest⟩ | ⟨ctx, e, d, alc, ctx', hok, he⟩
    · exact ⟨c, u, hest⟩
    · rcases er_resp_shape he with ⟨hj, _⟩ | ⟨u, c, h1, h2, h3⟩
      · subst hj; exact absurd hr (by simp [isRedirectB])
      · obtain ⟨c0, hc0, raw, hv⟩ := (er_resp_ctxok hok he).2 u h1
        obtain ⟨cid, hcid⟩ := (er_resp_ctxok hok he).1 c0 hc0
        exact ⟨c0, u, ⟨cid, hcid⟩, raw, hv⟩
  · intro P req r h hr
    rcases handle_resp_cases h with ⟨l, c, u, hl, hest⟩ | ⟨ctx, e, d, alc, ctx', hok, he⟩
    · subst hl; exact absurd hr (by simp [isRedirectB])
    · rcases er_resp_shape he with ⟨hj, _⟩ | ⟨u, c, h1, h2, h3⟩
      · exact ⟨e, d, stateAfter ctx, hj⟩
      · subst h3; exact absurd hr (by simp [isRedirectB])

/-- Claim C9: every non-redirect error response produced by the handler has
HTTP status code exactly 400, for every error code including `server_error`
from an unexpected internal fault; the only other responses are 302
redirects — no 500 is ever returned at this layer. -/
theorem c9_direct_error_status_400 (P : Provider) (req : Request) (r : HttpResponse)
    (h : AuthorizationHandler.handle P req = .resp r) :
    (∃ l, r = .redirect 302 l) ∨ ∃ e d st, r = .jsonError 400 e d st := by
  rcases handle_resp_cases h with ⟨l, c, u, hl, _⟩ | ⟨ctx, e, d, alc, ctx', hok, he⟩
  · exact Or.inl ⟨l, hl⟩
  · rcases er_resp_shape he with ⟨hj, _⟩ | ⟨u, c, _, _, h3⟩
    · exact Or.inr ⟨e, d, stateAfter ctx, hj⟩
    · exact Or.inl ⟨_, h3⟩

/-- Claim C4: whenever `client_id` does not resolve to a known client the
response is a direct JSON error with `invalid_request` — never a redirect,
whatever `redirect_uri` the request supplied. -/
theorem c4_unknown_client_direct_json (P : Provider) (req : Request) (ps : Params)
    (ar : AuthorizationRequest)
    (hps : chosenParams req = .ok ps)
    (hval : AuthorizationRequest.model_validate ps = .ok ar)
    (hclient : P.get_client ar.client_id = .ok none) :
    ∃ d st,
      AuthorizationHandler.handle P req = .resp (.jsonError 400 "invalid_request" d st) := by
  unfold AuthorizationHandler.handle
  rw [hps]
  unfold afterParams
  simp only []
  rw [hval]
  simp only []
  unfold afterValidation
  rw [hclient]
  simp only []
  exact ⟨some ("Client ID " ++ squote ++ ar.client_id ++ squote ++ " not found"),
    stateAfter ⟨.pyNone, none, ar.state, some ps⟩, rfl⟩

/-- Claim C2 (refuted — the code, not the claim, is at fault): the error
recovery in `error_response` is supposed to tolerate garbage without raising,
but `AnyHttpUrlModel.model_validate` (authorize.py line 105) sits outside the
`try` of lines 108-111, so a present-but-unparseable `redirect_uri` raises out
of `error_response`; the top-level catch-all then re-enters `error_response`,
raises again, and the exception escapes `handle`.  This theorem evaluates the
handler at such a failing input. -/
theorem c2_exception_escapes_handle :
    AuthorizationHandler.handle demoProvider
      ⟨"GET",
       [("client_id", .str "c1"), ("response_type", .str "code"),
        ("code_challenge", .str "x"), ("redirect_uri", .str "not-a-url")],
       .ok []⟩ = .raised := by
  rfl

theorem pick_error_no_rt_literal {errs : List ValError}
    (h : ∀ x ∈ errs, ¬(x.loc = "response_type" ∧ x.type = "literal_error")) :
    pick_error errs = "invalid_request" := by
  unfold pick_error
  rw [if_neg]
  intro hany
  rw [List.any_eq_true] at hany
  obtain ⟨x, hx, hfx⟩ := hany
  simp only [Bool.and_eq_true, beq_iff_eq] at hfx
  exact h x hx hfx

/-- Claim C3 counterexample: a GET request that fails schema validation
(missing the required `code_challenge`) but whose `client_id` resolves and
whose client yields a default registered redirect URI is answered via a 302
redirect, not the direct (non-redirect) response the claim demands. -/
theorem c3_counterexample_redirect_on_missing_field :
    AuthorizationHandler.handle demoProvider
      ⟨"GET",
       [("client_id", .str "c1"), ("response_type", .str "code"), ("state", .str "s")],
       .ok []⟩
      = .resp (.redirect 302
        ("https://app.example/cb?error=invalid_request&error_description=code_challenge%3A+missing&state=s")) := by
  rfl

/-- Claim C3 (amended): for requests failing schema validation with no
`response_type` literal mismatch, any response the handler produces carries
error `invalid_request` and echoes the raw `state`; it is a direct JSON
response unless the error-path recovery establishes both a resolved client and
a validated redirect URI, in which case it is a 302 redirect carrying the same
fields. -/
theorem c3_amended_missing_field (P : Provider) (req : Request) (ps : Params)
    (errs : List ValError) (s : String) (r : HttpResponse)
    (hps : chosenParams req = .ok ps)
    (hval : AuthorizationRequest.model_validate ps = .error errs)
    (hnolit : ∀ x ∈ errs, ¬(x.loc = "response_type" ∧ x.type = "literal_error"))
    (hstate : getParam ps "state" = some (.str s))
    (hr : AuthorizationHandler.handle P req = .resp r) :
    r = .jsonError 400 "invalid_request" (some (stringify_pydantic_error errs)) (some s) ∨
    ∃ c u, Established P c u ∧
      r = .redirect 302 (construct_redirect_uri u.url
        (errFields "invalid_request" (some (stringify_pydantic_error errs)) (some s))) := by
  have hbe : best_effort_extract_string "state" (some ps) = some s := by
    unfold best_effort_extract_string
    simp only []
    rw [hstate]
  have hsa : stateAfter ⟨.pyNone, none, best_effort_extract_string "state" (some ps), some ps⟩
      = some s := by
    unfold stateAfter
    simp only []
    rw [hbe]
  unfold AuthorizationHandler.handle at hr
  rw [hps] at hr
  unfold afterParams at hr
  simp only [] at hr
  rw [hval] at hr
  simp only [] at hr
  rw [pick_error_no_rt_literal hnolit] at hr
  obtain ⟨ctx', he⟩ := runErr_resp hr
  rcases er_resp_shape he with ⟨hj, _⟩ | ⟨u, c, h1, h2, h3⟩
  · left
    rw [hj, hsa]
  · right
    have hok : CtxOK P ⟨.pyNone, none, best_effort_extract_string "state" (some ps), some ps⟩ :=
      ⟨by simp, by simp⟩
    obtain ⟨c0, hc0, raw, hv⟩ := (er_resp_ctxok hok he).2 u h1
    obtain ⟨cid, hcid⟩ := (er_resp_ctxok hok he).1 c0 hc0
    rw [hsa] at h3
    exact ⟨c0, u, ⟨⟨cid, hcid⟩, raw, hv⟩, h3⟩

theorem loadRedirectStep_nonclient {ctx : ErrCtx}
    (h : ∀ c, ctx.client ≠ .someC c) : loadRedirectStep ctx = .ok ctx.redirect_uri := by
  unfold loadRedirectStep
  rcases hru : ctx.redirect_uri with _ | u <;> cases hcl : ctx.client <;>
    first
      | rfl
      | exact absurd hcl (h _)

/-- Claim C5 counterexample: with a resolver that raises, the best-effort
client recovery inside `error_response` lets the exception escape (there is no
try/except around `await self.provider.get_client(...)` at authorize.py line
99), contradicting the claim that such failures never escape. -/
theorem c5_counterexample_resolver_exception_escapes :
    error_response raisingProvider ⟨.pyNone, none, none, some [("client_id", .str "boom")]⟩
      "invalid_request" none true
      = .raised ⟨.pyNone, none, none, some [("client_id", .str "boom")]⟩ := by
  rfl

/-- Claim C5 (amended): during recovery with no client yet known, a not-found
result from the resolver (or an absent/empty raw `client_id`) is tolerated:
`error_response` returns the direct JSON response with the client still
unknown.  Only resolver exceptions escape (see the counterexample). -/
theorem c5_amended_notfound_swallowed (P : Provider) (ctx : ErrCtx) (e : String)
    (d : Option String)
    (hc : ctx.client = .pyNone)
    (hnf : ∀ cid, best_effort_extract_string "client_id" ctx.params = some cid →
      cid ≠ "" → P.get_client cid = .ok none) :
    ∃ ctx', error_response P ctx e d true = .resp (.jsonError 400 e d (stateAfter ctx)) ctx' ∧
      ∀ c, ctx'.client ≠ .someC c := by
  have hlc0 : loadClientStep P ctx true = .ok .pyNone ∨
      loadClientStep P ctx true = .ok .emptyStr := by
    unfold loadClientStep
    rw [hc]
    cases hbe : best_effort_extract_string "client_id" ctx.params
    · exact Or.inl rfl
    · rename_i cid
      simp only []
      by_cases hcid : cid = ""
      · rw [if_pos hcid]
        exact Or.inr rfl
      · rw [if_neg hcid, hnf cid hbe hcid]
        exact Or.inl rfl
  obtain ⟨cl, hlc, hncl⟩ : ∃ cl, loadClientStep P ctx true = .ok cl ∧
      ∀ c, cl ≠ .someC c := by
    rcases hlc0 with h0 | h0
    · exact ⟨_, h0, by intro c; simp⟩
    · exact ⟨_, h0, by intro c; simp⟩
  have hnr : loadRedirectStep { ctx with client := cl } = .ok ctx.redirect_uri :=
    loadRedirectStep_nonclient (by intro c2 hc2; exact hncl c2 hc2)
  refine ⟨⟨cl, ctx.redirect_uri, stateAfter ctx, ctx.params⟩, ?_, fun c => hncl c⟩
  unfold error_response
  rw [hlc]
  simp only []
  rw [hnr]
  simp only []
  rcases hru : ctx.redirect_uri with _ | u <;> cases hcl3 : cl
  · rfl
  · rfl
  · exact absurd hcl3 (hncl _)
  · rfl
  · rfl
  · exact absurd hcl3 (hncl _)

theorem runErr_established (P : Provider) (c : Client) (u : HttpUrl) (st : Option String)
    (pso : Option Params) (e : String) (d : Option String) (alc : Bool) :
    runErr P ⟨.someC c, some u, st, pso⟩ e d alc =
      .resp (.redirect 302 (construct_redirect_uri u.url
        (errFields e d (stateAfter ⟨.someC c, some u, st, pso⟩)))) := by
  cases alc <;> rfl

/-- Claim C6: when the client resolves and the redirect URI validates but the
scope is rejected, the response is a 302 redirect to the client's validated
redirect URI with `error=invalid_scope` (and description and the original
`state`) appended as query parameters by the composer, which preserves any
pre-existing query on that URI. -/
theorem c6_scope_rejected_redirect (P : Provider) (req : Request) (ps : Params)
    (ar : AuthorizationRequest) (c : Client) (u : HttpUrl) (msg : String)
    (hps : chosenParams req = .ok ps)
    (hval : AuthorizationRequest.model_validate ps = .ok ar)
    (hc : P.get_client ar.client_id = .ok (some c))
    (hu : c.validate_redirect_uri ar.redirect_uri = .ok u)
    (hs : c.validate_scope ar.scope = .error msg) :
    AuthorizationHandler.handle P req = .resp (.redirect 302
      (construct_redirect_uri u.url (errFields "invalid_scope" (some msg) ar.state))) := by
  have har : ar.state = best_effort_extract_string "state" (some ps) := by
    unfold AuthorizationRequest.model_validate at hval
    simp only [] at hval
    by_cases hemp : validationErrors ps = []
    · rw [if_pos hemp] at hval
      have hrec := Except.ok.inj hval
      rw [← hrec]
      rfl
    · rw [if_neg hemp] at hval
      exact absurd hval (by simp)
  have hsa : stateAfter ⟨.someC c, some u, ar.state, some ps⟩ = ar.state := by
    unfold stateAfter
    simp only []
    cases hst : ar.state
    · rw [hst] at har
      exact har.symm
    · rfl
  unfold AuthorizationHandler.handle
  rw [hps]
  unfold afterParams
  simp only []
  rw [hval]
  simp only []
  unfold afterValidation
  rw [hc]
  simp only []
  rw [hu]
  simp only []
  rw [hs]
  simp only []
  rw [runErr_established, hsa]

theorem validationErrors_no_rt_literal {ps : Params}
    (hrt : getParam ps "response_type" = none ∨
      getParam ps "response_type" = some (.str "code")) :
    ∀ x ∈ validationErrors ps, ¬(x.loc = "response_type" ∧ x.type = "literal_error") := by
  intro x hx hbad
  unfold validationErrors at hx
  rcases hrt with h0 | h0 <;> rw [h0] at hx <;>
    simp only [List.mem_append] at hx <;>
    rcases hx with ((((((h1 | h1) | h1) | h1) | h1) | h1) | h1) <;>
    revert h1 <;> try split
  all_goals
    intros
    try subst_vars
    simp_all

/-- Claim C7: whenever `response_type` is present but not the literal `code`,
the resulting error kind is exactly `unsupported_response_type` (even when
other fields are also violated); when `response_type` is absent or equal to
`code`, every schema violation yields `invalid_request`. -/
theorem c7_response_type_error_kind :
    (∀ (ps : Params) (v : ParamValue), getParam ps "response_type" = some v →
        v ≠ .str "code" →
        ∃ errs, AuthorizationRequest.model_validate ps = .error errs ∧
          pick_error errs = "unsupported_response_type") ∧
    (∀ (ps : Params) (errs : List ValError),
        AuthorizationRequest.model_validate ps = .error errs →
        (getParam ps "response_type" = none ∨
          getParam ps "response_type" = some (.str "code")) →
        pick_error errs = "invalid_request") := by
  constructor
  · intro ps v hv hne
    have hmem : (⟨"response_type", "literal_error"⟩ : ValError) ∈ validationErrors ps := by
      unfold validationErrors
      rw [hv]
      rcases v with sv | _
      · simp only []
        rw [if_neg (fun hs => hne (by rw [hs]))]
        simp
      · simp
    have hne2 : validationErrors ps ≠ [] := List.ne_nil_of_mem hmem
    refine ⟨validationErrors ps, ?_, ?_⟩
    · unfold AuthorizationRequest.model_validate
      simp only []
      rw [if_neg hne2]
    · unfold pick_error
      rw [if_pos]
      rw [List.any_eq_true]
      exact ⟨⟨"response_type", "literal_error"⟩, hmem, rfl⟩
  · intro ps errs hval hrt
    have herrs : errs = validationErrors ps := by
      unfold AuthorizationRequest.model_validate at hval
      simp only [] at hval
      by_cases hemp : validationErrors ps = []
      · rw [if_pos hemp] at hval
        exact absurd hval (by simp)
      · rw [if_neg hemp] at hval
        exact (Except.error.inj hval).symm
    subst herrs
    exact pick_error_no_rt_literal (validationErrors_no_rt_literal hrt)

/-- Claim C8: composing the fields `error=invalid_scope`, `state=xyz` onto
`https://app.example/cb?foo=1` yields exactly
`https://app.example/cb?foo=1&error=invalid_scope&state=xyz`: the pre-existing
query survives verbatim (not re-encoded), the new fields follow it joined by
`&` in stable field order, only non-null fields appear, and no deduplication
happens — shown by the second conjunct, where a pre-existing `error` parameter
is kept alongside the appended one. -/
theorem c8_error_redirect_composition :
    create_error_redirect "https://app.example/cb?foo=1"
        (.response { error := "invalid_scope", error_description := none, state := some "xyz" })
      = "https://app.example/cb?foo=1&error=invalid_scope&state=xyz" ∧
    create_error_redirect "https://app.example/cb?error=old"
        (.response { error := "invalid_scope", error_description := none, state := some "xyz" })
      = "https://app.example/cb?error=old&error=invalid_scope&state=xyz" :=
  ⟨rfl, rfl⟩

/-- Claim C10: for every request whose method is not GET — not only POST — the
handler reads its parameters from the form body, behaving exactly as it does
for POST with the same form (the query string is ignored); no method is
rejected by this handler itself. -/
theorem c10_non_get_reads_form (P : Provider) (m : String) (q q2 : Params)
    (f : Except Unit Params) (hm : m ≠ "GET") :
    AuthorizationHandler.handle P ⟨m, q, f⟩ = AuthorizationHandler.handle P ⟨"POST", q2, f⟩ := by
  unfold AuthorizationHandler.handle chosenParams
  simp only []
  rw [if_neg hm, if_neg (by decide : ¬("POST" : String) = "GET")]

/-! ## Witnesses: each applies its claim theorem at a concrete input -/

/-- Witness for C1, instantiated on the success path of `okRequest`. -/
theorem c1_witness : ∃ c u, Established demoProvider c u :=
  c1_redirect_iff_client_and_validated_uri.2.1 demoProvider okRequest
    (.redirect 302 "https://app.example/consent") rfl rfl

/-- Witness for C9, instantiated at a request whose form parsing raises, so
the handler answers with a `server_error` JSON body — status 400, not 500. -/
theorem c9_witness :
    (∃ l, (HttpResponse.jsonError 400 "server_error"
        (some "An unexpected error occurred") none) = .redirect 302 l) ∨
    ∃ e d st, (HttpResponse.jsonError 400 "server_error"
        (some "An unexpected error occurred") none) = .jsonError 400 e d st :=
  c9_direct_error_status_400 demoProvider ⟨"POST", [], .error ()⟩ _ rfl

/-- Witness for C4, instantiated at a schema-valid request naming an unknown
client. -/
theorem c4_witness :
    ∃ d st, AuthorizationHandler.handle demoProvider
      ⟨"GET",
       [("client_id", .str "nobody"), ("response_type", .str "code"),
        ("code_challenge", .str "x")],
       .ok []⟩
      = .resp (.jsonError 400 "invalid_request" d st) :=
  c4_unknown_client_direct_json demoProvider _ _
    ⟨"nobody", none, "code", "x", "S256", none, none⟩ rfl rfl rfl

/-- Witness for C3 (amended), instantiated at the request of the
counterexample, where the redirect branch of the disjunction is realised. -/
theorem c3_witness :
    (HttpResponse.redirect 302
        "https://app.example/cb?error=invalid_request&error_description=code_challenge%3A+missing&state=s")
      = .jsonError 400 "invalid_request"
          (some (stringify_pydantic_error [⟨"code_challenge", "missing"⟩])) (some "s") ∨
    ∃ c u, Established demoProvider c u ∧
      (HttpResponse.redirect 302
        "https://app.example/cb?error=invalid_request&error_description=code_challenge%3A+missing&state=s")
      = .redirect 302 (construct_redirect_uri u.url
          (errFields "invalid_request"
            (some (stringify_pydantic_error [⟨"code_challenge", "missing"⟩])) (some "s"))) :=
  c3_amended_missing_field demoProvider
    ⟨"GET",
     [("client_id", .str "c1"), ("response_type", .str "code"), ("state", .str "s")],
     .ok []⟩
    [("client_id", .str "c1"), ("response_type", .str "code"), ("state", .str "s")]
    [⟨"code_challenge", "missing"⟩] "s" _ rfl rfl (by decide) rfl rfl

/-- Witness for C5 (amended), instantiated with a resolver that reports
not-found: no exception, direct JSON response, client still unknown. -/
theorem c5_witness :
    ∃ ctx', error_response notFoundProvider
        ⟨.pyNone, none, none, some [("client_id", .str "nobody")]⟩
        "invalid_request" none true
      = .resp (.jsonError 400 "invalid_request" none
          (stateAfter ⟨.pyNone, none, none, some [("client_id", .str "nobody")]⟩)) ctx' ∧
      ∀ c, ctx'.client ≠ .someC c :=
  c5_amended_notfound_swallowed notFoundProvider _ "invalid_request" none rfl
    (fun _ _ _ => rfl)

/-- Witness for C6, instantiated at a request with the rejected scope `bad`. -/
theorem c6_witness :
    AuthorizationHandler.handle demoProvider
      ⟨"GET",
       [("client_id", .str "c1"), ("response_type", .str "code"),
        ("code_challenge", .str "x"), ("scope", .str "bad"),
        ("redirect_uri", .str "https://app.example/cb"), ("state", .str "xyz")],
       .ok []⟩
      = .resp (.redirect 302 (construct_redirect_uri cbUrl.url
          (errFields "invalid_scope" (some "scope not allowed") (some "xyz")))) :=
  c6_scope_rejected_redirect demoProvider _ _
    ⟨"c1", some ⟨"https://app.example/cb"⟩, "code", "x", "S256", some "xyz", some "bad"⟩
    demoClient cbUrl "scope not allowed" rfl rfl rfl rfl rfl

/-- Witness for C7: `response_type=token` yields `unsupported_response_type`;
a missing `code_challenge` with `response_type=code` yields `invalid_request`. -/
theorem c7_witness :
    (∃ errs, AuthorizationRequest.model_validate
        [("client_id", .str "c1"), ("response_type", .str "token"),
         ("code_challenge", .str "x")]
        = .error errs ∧ pick_error errs = "unsupported_response_type") ∧
    pick_error [⟨"code_challenge", "missing"⟩] = "invalid_request" := by
  constructor
  · exact c7_response_type_error_kind.1 _ (.str "token") rfl (by decide)
  · exact c7_response_type_error_kind.2
      [("client_id", .str "c1"), ("response_type", .str "code")] _ rfl (Or.inr rfl)

/-- Witness for C10: a PUT request behaves exactly like a POST with the same
form body, whatever the query string says. -/
theorem c10_witness :
    AuthorizationHandler.handle demoProvider ⟨"PUT", [("ignored", .str "q")], .ok []⟩
      = AuthorizationHandler.handle demoProvider ⟨"POST", [], .ok []⟩ :=
  c10_non_get_reads_form demoProvider "PUT" [("ignored", .str "q")] [] (.ok []) (by decide)

end Mcp
